import Mathlib

/-!
Verification of the ECG upload-server classification and extraction core
(`detect_file_type` and `extract_pdf_from_xml` in `http_server.py`,
`extract_pdf_from_ecg_xml` in `extract_ecg_pdf.py`).

Byte buffers and decoded text are both modelled as `List Nat`: a buffer is a
list of byte values (< 256) and a text is a list of Unicode code points.
Python library routines used by the source (codecs with their error handlers,
`base64.b64decode`, `xml.etree.ElementTree.fromstring`, `str.strip`) are
modelled below at the level of fidelity the source exercises; simplifications
are noted in the comments of each definition.
-/

/-- Closed set of classification outcomes.  The source returns the extension
strings ".pdf", ".xml", ".html", ".json", ".bin"; the constructors stand for
those five strings. -/
inductive FileType where
  | pdf
  | xml
  | html
  | json
  | bin
deriving DecidableEq, Repr

/-- Substring test on code-point lists, modelling the Python operator
`needle in hay` for `str`/`bytes`. -/
def containsSub (needle hay : List Nat) : Bool :=
  match hay with
  | [] => needle.isEmpty
  | _ :: tail => needle.isPrefixOf hay || containsSub needle tail

/-- Leading-segment test, modelling Python `s.startswith(t)`. -/
def startsWithL : List Nat → List Nat → Bool
  | [], _ => true
  | _ :: _, [] => false
  | p :: ps, x :: xs => p == x && startsWithL ps xs

/-- ASCII lower-casing of one byte, modelling `bytes.lower` applied
byte-wise. -/
def lowerByte (b : Nat) : Nat :=
  if 65 ≤ b ∧ b ≤ 90 then b + 32 else b

/-- Whitespace set of Python `str.strip` (Unicode whitespace). -/
def isPySpace (c : Nat) : Bool :=
  (9 ≤ c && c ≤ 13) || (28 ≤ c && c ≤ 31) || c == 32 || c == 133 || c == 160 ||
  c == 0x1680 || (0x2000 ≤ c && c ≤ 0x200A) || c == 0x2028 || c == 0x2029 ||
  c == 0x202F || c == 0x205F || c == 0x3000

/-- Model of Python `str.strip()`: drop the whitespace characters from both
ends. -/
def pystrip (l : List Nat) : List Nat :=
  ((l.dropWhile isPySpace).reverse.dropWhile isPySpace).reverse

/-- Pair consecutive bytes into 16-bit code units, little-endian.  A trailing
odd byte is dropped, as the permissive decoders do. -/
def unitsLE : List Nat → List Nat
  | b0 :: b1 :: rest => (b0 + 256 * b1) :: unitsLE rest
  | _ => []

/-- Pair consecutive bytes into 16-bit code units, big-endian. -/
def unitsBE : List Nat → List Nat
  | b0 :: b1 :: rest => (b0 * 256 + b1) :: unitsBE rest
  | _ => []

/-- Decode a sequence of UTF-16 code units with the `ignore` error handler of
Python codecs: surrogate pairs combine, lone surrogates are dropped. -/
def utf16Ignore : List Nat → List Nat
  | [] => []
  | [u] => if u < 0xD800 ∨ 0xDFFF < u then [u] else []
  | u :: v :: rest =>
    if u < 0xD800 ∨ 0xDFFF < u then u :: utf16Ignore (v :: rest)
    else if u ≤ 0xDBFF then
      if 0xDC00 ≤ v ∧ v ≤ 0xDFFF then
        (0x10000 + (u - 0xD800) * 0x400 + (v - 0xDC00)) :: utf16Ignore rest
      else utf16Ignore (v :: rest)
    else utf16Ignore (v :: rest)

/-- Model of `bytes.decode("utf-16-le", errors="ignore")`. -/
def utf16leIgnore (data : List Nat) : List Nat := utf16Ignore (unitsLE data)

/-- Model of `bytes.decode("utf-16-be", errors="ignore")`. -/
def utf16beIgnore (data : List Nat) : List Nat := utf16Ignore (unitsBE data)

/-- Continuation-byte test for UTF-8. -/
def utf8Cont (b : Nat) : Bool := 0x80 ≤ b && b ≤ 0xBF

/-- One step of the strict UTF-8 decoder on a lead byte `b` followed by
`rest`: either a decoded code point or a dropped invalid maximal subpart,
together with the input remaining after the consumed bytes. -/
def utf8Step (b : Nat) (rest : List Nat) : Option Nat × List Nat :=
  if b < 0x80 then (some b, rest)
  else if 0xC2 ≤ b ∧ b ≤ 0xDF then
    match rest with
    | c :: rest2 =>
      if utf8Cont c then (some ((b - 0xC0) * 64 + (c - 0x80)), rest2)
      else (none, rest)
    | [] => (none, [])
  else if 0xE0 ≤ b ∧ b ≤ 0xEF then
    match rest with
    | c :: rest2 =>
      if (b == 0xE0 && (0xA0 ≤ c && c ≤ 0xBF)) ||
         (b == 0xED && (0x80 ≤ c && c ≤ 0x9F)) ||
         (b != 0xE0 && b != 0xED && utf8Cont c) then
        match rest2 with
        | d :: rest3 =>
          if utf8Cont d then
            (some ((b - 0xE0) * 4096 + (c - 0x80) * 64 + (d - 0x80)), rest3)
          else (none, rest2)
        | [] => (none, [])
      else (none, rest)
    | [] => (none, [])
  else if 0xF0 ≤ b ∧ b ≤ 0xF4 then
    match rest with
    | c :: rest2 =>
      if (b == 0xF0 && (0x90 ≤ c && c ≤ 0xBF)) ||
         (b == 0xF4 && (0x80 ≤ c && c ≤ 0x8F)) ||
         (b != 0xF0 && b != 0xF4 && utf8Cont c) then
        match rest2 with
        | d :: rest3 =>
          if utf8Cont d then
            match rest3 with
            | e :: rest4 =>
              if utf8Cont e then
                (some ((b - 0xF0) * 262144 + (c - 0x80) * 4096 +
                  (d - 0x80) * 64 + (e - 0x80)), rest4)
              else (none, rest3)
            | [] => (none, [])
          else (none, rest2)
        | [] => (none, [])
      else (none, rest)
    | [] => (none, [])
  else (none, rest)

theorem utf8Step_len (b : Nat) (rest : List Nat) :
    (utf8Step b rest).2.length ≤ rest.length := by
  unfold utf8Step
  repeat' split
  all_goals simp_all
  all_goals omega

/-- Fuelled iteration of `utf8Step` dropping invalid subparts.  Each step
consumes at least the lead byte, so fuel equal to the input length is always
enough. -/
def utf8IgnoreF : Nat → List Nat → List Nat
  | 0, _ => []
  | _ + 1, [] => []
  | fuel + 1, b :: rest =>
    match utf8Step b rest with
    | (some cp, rest2) => cp :: utf8IgnoreF fuel rest2
    | (none, rest2) => utf8IgnoreF fuel rest2

/-- Model of `bytes.decode("utf-8", errors="ignore")`: strict UTF-8 with
invalid maximal subparts dropped rather than reported. -/
def utf8Ignore (l : List Nat) : List Nat := utf8IgnoreF l.length l

/-- Needle `"<?xml"` searched for in the decoded UTF-16 probe text. -/
def xmlDeclNeedle : List Nat := [60, 63, 120, 109, 108]

/-- Needle `"<restingecgdata"`, the device-specific root-tag marker. -/
def restingNeedle : List Nat :=
  [60, 114, 101, 115, 116, 105, 110, 103, 101, 99, 103, 100, 97, 116, 97]

/-- Needle `b"<html"`. -/
def htmlNeedle : List Nat := [60, 104, 116, 109, 108]

/-- Needle `b"<!doctype"`. -/
def doctypeNeedle : List Nat := [60, 33, 100, 111, 99, 116, 121, 112, 101]

/-- UTF-16-LE probe of `detect_file_type`: decode `data[:200]` permissively
and search for the XML declaration or the device root tag. -/
def probeLE (data : List Nat) : Bool :=
  let t := utf16leIgnore (data.take 200)
  containsSub xmlDeclNeedle t || containsSub restingNeedle t

/-- UTF-16-BE probe of `detect_file_type`. -/
def probeBE (data : List Nat) : Bool :=
  let t := utf16beIgnore (data.take 200)
  containsSub xmlDeclNeedle t || containsSub restingNeedle t

/-- HTML rule of `detect_file_type`: case-insensitive search of the first
1000 bytes for `<html` or `<!doctype`. -/
def htmlRule (data : List Nat) : Bool :=
  let p := (data.take 1000).map lowerByte
  containsSub htmlNeedle p || containsSub doctypeNeedle p

/-- JSON rule of `detect_file_type`: decode the first 100 bytes permissively
as UTF-8, strip whitespace, and test whether the text starts with a brace or
bracket character. -/
def jsonRule (data : List Nat) : Bool :=
  let t := pystrip (utf8Ignore (data.take 100))
  startsWithL [123] t || startsWithL [91] t

/-- Body of `detect_file_type` after the minimum-length check: the ordered
signature rules of `http_server.py` lines 25-64. -/
def detectLong (data : List Nat) : FileType :=
  if data.take 4 = [37, 80, 68, 70] then .pdf
  else if data.take 5 = [60, 63, 120, 109, 108] then .xml
  else if data.take 2 = [255, 254] ∧ (data.take 20).contains 60 ∧
      (data.take 20).contains 63 ∧ probeLE data then .xml
  else if data.take 2 = [254, 255] ∧ probeBE data then .xml
  else if htmlRule data then .html
  else if jsonRule data then .json
  else .bin

/-- Model of `ECGUploadHandler.detect_file_type` (`http_server.py` lines
20-64). -/
def detect_file_type (data : List Nat) : FileType :=
  if data.length < 10 then .bin else detectLong data

/-- Value of one base64 alphabet character, or `none` for a character outside
the alphabet. -/
def b64val (c : Nat) : Option Nat :=
  if 65 ≤ c ∧ c ≤ 90 then some (c - 65)
  else if 97 ≤ c ∧ c ≤ 122 then some (c - 71)
  else if 48 ≤ c ∧ c ≤ 57 then some (c + 4)
  else if c = 43 then some 62
  else if c = 47 then some 63
  else none

/-- Alphabet character of a 6-bit value. -/
def b64chr (v : Nat) : Nat :=
  if v < 26 then v + 65
  else if v < 52 then v + 71
  else if v < 62 then v - 4
  else if v = 62 then 43
  else 47

/-- Quad-machine of `binascii.a2b_base64` in its default non-strict mode, as
called by `base64.b64decode(s)`: characters outside the alphabet are
discarded, `=` completing a quad ends the decode, and a quad left incomplete
at the end of input is a padding error (`none`).  State: remaining input,
position in the current quad, pending bits, padding characters seen, output
bytes. -/
def b64run : List Nat → Nat → Nat → Nat → List Nat → Option (List Nat)
  | [], qp, _, _, out => if qp = 0 then some out else none
  | c :: rest, qp, acc, pads, out =>
    if c = 61 then
      if 2 ≤ qp then
        if 4 ≤ qp + pads + 1 then some out
        else b64run rest qp acc (pads + 1) out
      else b64run rest qp acc pads out
    else
      match b64val c with
      | none => b64run rest qp acc pads out
      | some v =>
        match qp with
        | 0 => b64run rest 1 v pads out
        | 1 => b64run rest 2 (v % 16) pads (out ++ [acc * 4 + v / 16])
        | 2 => b64run rest 3 (v % 4) pads (out ++ [acc * 16 + v / 4])
        | _ => b64run rest 0 0 pads (out ++ [acc * 64 + v])

/-- Model of `base64.b64decode` applied to a `str`: the text is first encoded
as ASCII (failing on any code point of 128 or more), then decoded by the
non-strict quad machine. -/
def b64decodeStr (t : List Nat) : Option (List Nat) :=
  if t.all (· < 128) then b64run t 0 0 0 [] else none

/-- Standard base64 encoding with padding, modelling `base64.b64encode` on a
byte list. -/
def b64encode : List Nat → List Nat
  | a :: b :: c :: rest =>
    b64chr (a / 4) :: b64chr ((a % 4) * 16 + b / 16) ::
    b64chr ((b % 16) * 4 + c / 64) :: b64chr (c % 64) :: b64encode rest
  | [a, b] => [b64chr (a / 4), b64chr ((a % 4) * 16 + b / 16), b64chr ((b % 16) * 4), 61]
  | [a] => [b64chr (a / 4), b64chr ((a % 4) * 16), 61, 61]
  | [] => []

/-- Strict little-endian pairing of bytes into 16-bit units; an odd byte
count is a decode error. -/
def unitsLEStrict : List Nat → Option (List Nat)
  | [] => some []
  | [_] => none
  | b0 :: b1 :: rest => (unitsLEStrict rest).map ((b0 + 256 * b1) :: ·)

/-- Strict big-endian pairing of bytes into 16-bit units. -/
def unitsBEStrict : List Nat → Option (List Nat)
  | [] => some []
  | [_] => none
  | b0 :: b1 :: rest => (unitsBEStrict rest).map ((b0 * 256 + b1) :: ·)

/-- Strict UTF-16 decoding of a unit sequence: a lone surrogate is a decode
error. -/
def utf16Strict : List Nat → Option (List Nat)
  | [] => some []
  | u :: rest =>
    if u < 0xD800 ∨ 0xDFFF < u then (utf16Strict rest).map (u :: ·)
    else if u ≤ 0xDBFF then
      match rest with
      | v :: rest2 =>
        if 0xDC00 ≤ v ∧ v ≤ 0xDFFF then
          (utf16Strict rest2).map
            ((0x10000 + (u - 0xD800) * 0x400 + (v - 0xDC00)) :: ·)
        else none
      | [] => none
    else none

/-- Model of `bytes.decode("utf-16-le")` (strict). -/
def utf16leStrict (data : List Nat) : Option (List Nat) :=
  (unitsLEStrict data).bind utf16Strict

/-- Model of `bytes.decode("utf-16-be")` (strict). -/
def utf16beStrict (data : List Nat) : Option (List Nat) :=
  (unitsBEStrict data).bind utf16Strict

/-- Fuelled strict UTF-8 decoder. -/
def utf8StrictF : Nat → List Nat → Option (List Nat)
  | 0, _ => none
  | _ + 1, [] => some []
  | fuel + 1, b :: rest =>
    match utf8Step b rest with
    | (some cp, rest2) => (utf8StrictF fuel rest2).map (cp :: ·)
    | (none, _) => none

/-- Model of `bytes.decode("utf-8")` (strict): any invalid subpart is a
decode error. -/
def utf8Strict (l : List Nat) : Option (List Nat) := utf8StrictF (l.length + 1) l

/-- Encoding dispatch of `extract_pdf_from_xml` (`http_server.py` lines
70-75): UTF-16-LE after an FF FE head, UTF-16-BE after an FE FF head, UTF-8
otherwise, all strict. -/
def decodeXmlBytes (data : List Nat) : Option (List Nat) :=
  if data.take 2 = [255, 254] then utf16leStrict data
  else if data.take 2 = [254, 255] then utf16beStrict data
  else utf8Strict data

/-- XML element as produced by `xml.etree.ElementTree.fromstring`: tag,
attributes, text content before the first child, and child elements.  Tail
text is not recorded because the source never reads it. -/
inductive Elem where
  | mk : List Nat → List (List Nat × List Nat) → List Nat → List Elem → Elem
deriving Repr

/-- Tag of an element. -/
def Elem.tagOf : Elem → List Nat
  | .mk t _ _ _ => t

/-- Text content of an element (empty list models a missing text, which is
falsy in Python exactly like an empty string). -/
def Elem.textOf : Elem → List Nat
  | .mk _ _ x _ => x

/-- Children of an element. -/
def Elem.childrenOf : Elem → List Elem
  | .mk _ _ _ c => c

/-- XML whitespace. -/
def isXmlWs (c : Nat) : Bool := c == 32 || c == 9 || c == 10 || c == 13

/-- ASCII name-start character of a simplified XML name (the model restricts
names to ASCII; the documents of this system use ASCII names only). -/
def nameStart (c : Nat) : Bool :=
  (65 ≤ c && c ≤ 90) || (97 ≤ c && c ≤ 122) || c == 95 || c == 58

/-- ASCII name character. -/
def nameChar (c : Nat) : Bool :=
  nameStart c || (48 ≤ c && c ≤ 57) || c == 45 || c == 46

/-- Attribute-list fragment parser: whitespace-separated
`name="value"`/`name='value'` pairs up to a `>` or `/`.  Character and
entity references inside values are kept literal. -/
def parseAttrs : Nat → List Nat → Option (List (List Nat × List Nat) × List Nat)
  | 0, _ => none
  | fuel + 1, s =>
    let s1 := s.dropWhile isXmlWs
    match s1 with
    | [] => none
    | c :: _ =>
      if c == 62 || c == 47 then some ([], s1)
      else if nameStart c then
        let name := s1.takeWhile nameChar
        let s3 := (s1.dropWhile nameChar).dropWhile isXmlWs
        match s3 with
        | 61 :: s4 =>
          let s5 := s4.dropWhile isXmlWs
          match s5 with
          | q :: s6 =>
            if q == 34 || q == 39 then
              let v := s6.takeWhile (· != q)
              match s6.dropWhile (· != q) with
              | _ :: s8 =>
                match parseAttrs fuel s8 with
                | some (attrs, r) => some ((name, v) :: attrs, r)
                | none => none
              | [] => none
            else none
          | [] => none
        | _ => none
      else none

mutual

/-- Element parser: `<name attrs/>` or `<name attrs>content</name>`, with
the closing name required to match.  Character and entity references, CDATA
sections and comments are not expanded; a document using them parses
differently from the source library or fails, and no claim depends on
them. -/
def parseElem : Nat → List Nat → Option (Elem × List Nat)
  | 0, _ => none
  | fuel + 1, s =>
    match s with
    | 60 :: s1 =>
      match s1 with
      | c :: _ =>
        if nameStart c then
          let tag := s1.takeWhile nameChar
          let s2 := s1.dropWhile nameChar
          match parseAttrs (s2.length + 1) s2 with
          | some (attrs, s3) =>
            match s3 with
            | 47 :: 62 :: s4 => some (.mk tag attrs [] [], s4)
            | 62 :: s4 =>
              match parseContent fuel s4 with
              | some (text, children, s5) =>
                let ctag := s5.takeWhile nameChar
                let s6 := (s5.dropWhile nameChar).dropWhile isXmlWs
                match s6 with
                | 62 :: s7 =>
                  if ctag = tag then some (.mk tag attrs text children, s7)
                  else none
                | _ => none
              | none => none
            | _ => none
          | none => none
        else none
      | [] => none
    | _ => none

/-- Content parser: text up to the first markup, then child elements with
their tail texts discarded, ending at the matching `</`.  Returns the text
before the first child, the children and the input after the `</`. -/
def parseContent : Nat → List Nat → Option (List Nat × List Elem × List Nat)
  | 0, _ => none
  | fuel + 1, s =>
    let text := s.takeWhile (· != 60)
    match s.dropWhile (· != 60) with
    | 60 :: 47 :: s2 => some (text, [], s2)
    | 60 :: s1 =>
      match parseElem fuel (60 :: s1) with
      | some (child, s2) =>
        match parseContent fuel s2 with
        | some (_, children, s3) => some (text, child :: children, s3)
        | none => none
      | none => none
    | _ => none

end

/-- Name `xmlns` of a default-namespace declaration. -/
def xmlnsName : List Nat := [120, 109, 108, 110, 115]

mutual

/-- Default-namespace resolution of `ElementTree`: an unprefixed tag in the
scope of a default namespace declaration becomes `{uri}tag`.  Prefixed tags
are kept literal; in both the library and this model they never equal an
unprefixed name such as `StudyData`. -/
def applyNsE (d : List Nat) : Elem → Elem
  | .mk tag attrs text children =>
    let d2 := match attrs.lookup xmlnsName with
      | some uri => uri
      | none => d
    let tag2 :=
      if d2 ≠ [] ∧ ¬ tag.contains 58 then 123 :: (d2 ++ 125 :: tag) else tag
    .mk tag2 attrs text (applyNsL d2 children)

/-- Default-namespace resolution over a list of elements. -/
def applyNsL (d : List Nat) : List Elem → List Elem
  | [] => []
  | c :: rest => applyNsE d c :: applyNsL d rest

end

/-- Drop input through the closing `?>` of an XML declaration. -/
def skipDeclTail : List Nat → List Nat
  | 63 :: 62 :: rest => rest
  | _ :: rest => skipDeclTail rest
  | [] => []

/-- Model of `xml.etree.ElementTree.fromstring`: skip a byte-order mark, an
XML declaration at the start and surrounding whitespace, parse the root
element, require only whitespace after it, and resolve default
namespaces. -/
def parseXML (text : List Nat) : Option Elem :=
  let s0 := match text with
    | 0xFEFF :: rest => rest
    | other => other
  let s1 := if startsWithL [60, 63] s0 then (skipDeclTail s0).dropWhile isXmlWs
            else s0.dropWhile isXmlWs
  match parseElem (s1.length + 1) s1 with
  | some (root, rest) =>
    if rest.dropWhile isXmlWs = [] then some (applyNsE [] root) else none
  | none => none

mutual

/-- Document-order search of `find(".//tag")` over one element: the element
itself, then its subtree. -/
def findInElem (t : List Nat) : Elem → Option Elem
  | .mk tag attrs text children =>
    if tag = t then some (.mk tag attrs text children)
    else findInList t children

/-- Document-order search of `find(".//tag")` over a forest. -/
def findInList (t : List Nat) : List Elem → Option Elem
  | [] => none
  | c :: rest =>
    match findInElem t c with
    | some e => some e
    | none => findInList t rest

end

mutual

/-- All elements of a subtree, in document order, the element itself
included. -/
def descElem : Elem → List Elem
  | .mk tag attrs text children => .mk tag attrs text children :: descList children

/-- All elements of a forest, in document order. -/
def descList : List Elem → List Elem
  | [] => []
  | c :: rest => descElem c ++ descList rest

end

/-- Tag `StudyData` of the carrier element. -/
def studyDataTag : List Nat := [83, 116, 117, 100, 121, 68, 97, 116, 97]

/-- Text `JVBERi`, the required head of the carrier text. -/
def jvberiNeedle : List Nat := [74, 86, 66, 69, 82, 105]

/-- Bytes `%PDF`, the PDF signature. -/
def pdfSigBytes : List Nat := [37, 80, 68, 70]

/-- Model of `ECGUploadHandler.extract_pdf_from_xml` (`http_server.py` lines
66-95): decode, parse, locate the first `StudyData` descendant, check the
stripped text, require the `JVBERi` head, base64-decode, and verify the PDF
signature; every failure returns `none` as the except-all of the source
does. -/
def extract_pdf_from_xml (data : List Nat) : Option (List Nat) :=
  match decodeXmlBytes data with
  | none => none
  | some text =>
    match parseXML text with
    | none => none
    | some root =>
      match findInList studyDataTag root.childrenOf with
      | none => none
      | some el =>
        let t := pystrip el.textOf
        if t = [] then none
        else if startsWithL jvberiNeedle t then
          match b64decodeStr t with
          | none => none
          | some bs => if startsWithL pdfSigBytes bs then some bs else none
        else none

/-! ## Concrete inputs used by the claims -/

/-- Bytes of the 7-character ASCII text of a small JSON object (open brace,
quote, a, quote, colon, 1, close brace). -/
def json7 : List Nat := [123, 34, 97, 34, 58, 49, 125]

/-- Bytes of `json7` padded with three trailing spaces to 10 bytes. -/
def json10 : List Nat := [123, 34, 97, 34, 58, 49, 125, 32, 32, 32]

/-- Nine bytes beginning with the PDF signature (below minimum length). -/
def pdf9 : List Nat := [37, 80, 68, 70, 45, 49, 46, 52, 32]

/-- Byte 0xFF followed by the 9 ASCII bytes of a JSON object text. -/
def cex8bytes : List Nat := [255, 123, 34, 97, 34, 58, 49, 125, 120, 120]

/-- FF FE byte-order mark followed by UTF-16-LE `<restingecgdata>`. -/
def cex5bytes : List Nat :=
  [255, 254, 60, 0, 114, 0, 101, 0, 115, 0, 116, 0, 105, 0, 110, 0, 103, 0,
   101, 0, 99, 0, 103, 0, 100, 0, 97, 0, 116, 0, 97, 0, 62, 0]

/-- FF FE byte-order mark followed by a UTF-16-LE XML declaration. -/
def leDoc : List Nat :=
  [255, 254, 60, 0, 63, 0, 120, 0, 109, 0, 108, 0, 32, 0, 118, 0, 101, 0,
   114, 0, 115, 0, 105, 0, 111, 0, 110, 0, 61, 0, 34, 0, 49, 0, 46, 0, 48,
   0, 34, 0, 63, 0, 62, 0]

/-- FE FF byte-order mark followed by the same XML declaration in
UTF-16-BE. -/
def beDoc : List Nat :=
  [254, 255, 0, 60, 0, 63, 0, 120, 0, 109, 0, 108, 0, 32, 0, 118, 0, 101, 0,
   114, 0, 115, 0, 105, 0, 111, 0, 110, 0, 61, 0, 34, 0, 49, 0, 46, 0, 48,
   0, 34, 0, 63, 0, 62]

/-! ## Claims about the classifier -/

/-- C4.  The classifier is total over the closed tag set, every buffer below
the minimum length yields Binary, and the 3-byte input 00 01 02 yields
Binary. -/
theorem claim4_classifier_total :
    (∀ data : List Nat,
      detect_file_type data = FileType.pdf ∨ detect_file_type data = FileType.xml ∨
      detect_file_type data = FileType.html ∨ detect_file_type data = FileType.json ∨
      detect_file_type data = FileType.bin) ∧
    (∀ data : List Nat, data.length < 10 → detect_file_type data = FileType.bin) ∧
    detect_file_type [0, 1, 2] = FileType.bin := by
  refine ⟨?_, ?_, by decide⟩
  · intro data
    cases h : detect_file_type data <;> simp
  · intro data h
    simp [detect_file_type, if_pos h]

/-- Witness for C4 at concrete inputs. -/
theorem claim4_classifier_total_witness :
    detect_file_type pdf9 = FileType.bin :=
  claim4_classifier_total.2.1 pdf9 (by decide)

/-- C10.  The minimum length of the classifier is exactly 10: every buffer
of length at most 9 is Binary whatever its content, and on buffers of
length at least 10 the classification is decided by the signature rules
alone. -/
theorem claim10_min_length :
    (∀ data : List Nat, data.length ≤ 9 → detect_file_type data = FileType.bin) ∧
    (∀ data : List Nat, 10 ≤ data.length → detect_file_type data = detectLong data) := by
  constructor
  · intro data h
    have h10 : data.length < 10 := by omega
    simp [detect_file_type, if_pos h10]
  · intro data h
    have h10 : ¬ data.length < 10 := by omega
    simp [detect_file_type, if_neg h10]

/-- Witness for C10: a 9-byte buffer starting with the PDF signature is
still Binary, and a 10-byte buffer is classified by the signature rules. -/
theorem claim10_min_length_witness :
    detect_file_type pdf9 = FileType.bin ∧
    detect_file_type json10 = detectLong json10 :=
  ⟨claim10_min_length.1 pdf9 (by decide), claim10_min_length.2 json10 (by decide)⟩

/-- C9, counterexample.  The 7-byte JSON text is below the 10-byte minimum,
so the classifier returns Binary, not JSON as the claim states. -/
theorem claim9_cex :
    detect_file_type json7 ≠ FileType.json ∧ detect_file_type json7 = FileType.bin := by
  decide

/-- C9 as amended.  The 7-byte JSON text is classified Binary because it is
below the 10-byte minimum; the same text padded with three spaces to 10
bytes is classified JSON. -/
theorem claim9_amended :
    detect_file_type json7 = FileType.bin ∧ json7.length < 10 ∧
    detect_file_type json10 = FileType.json := by
  decide

/-- C5, counterexample.  A buffer that starts with the FF FE byte-order mark
and whose UTF-16-LE decoding contains the device root-tag marker satisfies
the rule of the claim, yet the classifier does not tag it XML: the source
additionally requires a `<` byte and a `?` byte inside the first 20 bytes,
and `<restingecgdata>` carries no `?`. -/
theorem claim5_cex :
    cex5bytes.take 2 = [255, 254] ∧ probeLE cex5bytes = true ∧
    10 ≤ cex5bytes.length ∧ cex5bytes.take 4 ≠ [37, 80, 68, 70] ∧
    cex5bytes.take 5 ≠ [60, 63, 120, 109, 108] ∧
    detect_file_type cex5bytes ≠ FileType.xml ∧
    detect_file_type cex5bytes = FileType.bin := by
  decide

/-- C5 as amended.  The FE FF rule is as the claim states; the FF FE rule
additionally requires a 0x3C byte and a 0x3F byte to occur within the first
20 bytes.  The two concrete encoding-coverage scenarios hold. -/
theorem claim5_amended :
    (∀ data : List Nat, 10 ≤ data.length →
      data.take 2 = [255, 254] →
      (data.take 20).contains 60 = true → (data.take 20).contains 63 = true →
      probeLE data = true → detect_file_type data = FileType.xml) ∧
    (∀ data : List Nat, 10 ≤ data.length →
      data.take 2 = [254, 255] →
      probeBE data = true → detect_file_type data = FileType.xml) ∧
    detect_file_type leDoc = FileType.xml ∧
    detect_file_type beDoc = FileType.xml := by
  refine ⟨?_, ?_, by decide, by decide⟩
  · intro data h10 hbom h60 h63 hp
    have hlen : ¬ data.length < 10 := by omega
    have h1 : data.take 4 ≠ [37, 80, 68, 70] := by
      intro h
      have h2 := congrArg (List.take 2) h
      rw [List.take_take] at h2
      norm_num at h2
      rw [hbom] at h2
      exact absurd h2 (by decide)
    have h2 : data.take 5 ≠ [60, 63, 120, 109, 108] := by
      intro h
      have h3 := congrArg (List.take 2) h
      rw [List.take_take] at h3
      norm_num at h3
      rw [hbom] at h3
      exact absurd h3 (by decide)
    simp only [detect_file_type, if_neg hlen, detectLong, if_neg h1, if_neg h2]
    rw [if_pos ⟨hbom, h60, h63, hp⟩]
  · intro data h10 hbom hp
    have hlen : ¬ data.length < 10 := by omega
    have h1 : data.take 4 ≠ [37, 80, 68, 70] := by
      intro h
      have h2 := congrArg (List.take 2) h
      rw [List.take_take] at h2
      norm_num at h2
      rw [hbom] at h2
      exact absurd h2 (by decide)
    have h2 : data.take 5 ≠ [60, 63, 120, 109, 108] := by
      intro h
      have h3 := congrArg (List.take 2) h
      rw [List.take_take] at h3
      norm_num at h3
      rw [hbom] at h3
      exact absurd h3 (by decide)
    have h3 : ¬ (data.take 2 = [255, 254] ∧ (data.take 20).contains 60 ∧
        (data.take 20).contains 63 ∧ probeLE data) := by
      rintro ⟨e, -⟩
      rw [hbom] at e
      exact absurd e (by decide)
    simp only [detect_file_type, if_neg hlen, detectLong, if_neg h1, if_neg h2,
      if_neg h3]
    rw [if_pos ⟨hbom, hp⟩]

/-- Witness for C5 as amended, at the two byte-order-mark documents. -/
theorem claim5_amended_witness :
    detect_file_type leDoc = FileType.xml ∧ detect_file_type beDoc = FileType.xml :=
  ⟨claim5_amended.1 leDoc (by decide) (by decide) (by decide) (by decide) (by decide),
   claim5_amended.2.1 beDoc (by decide) (by decide) (by decide)⟩

/-- Fuelled UTF-8 decode with the `replace` error handler: an invalid
maximal subpart becomes U+FFFD instead of being dropped. -/
def utf8ReplaceF : Nat → List Nat → List Nat
  | 0, _ => []
  | _ + 1, [] => []
  | fuel + 1, b :: rest =>
    match utf8Step b rest with
    | (some cp, rest2) => cp :: utf8ReplaceF fuel rest2
    | (none, rest2) => 0xFFFD :: utf8ReplaceF fuel rest2

/-- UTF-8 decode with invalid sequences replaced by U+FFFD, the reading the
claim gives of the JSON rule. -/
def utf8Replace (l : List Nat) : List Nat := utf8ReplaceF l.length l

/-- JSON predicate following the words of the claim: the first 100 bytes
decoded with invalid sequences REPLACED rather than rejected, stripped,
start with a brace or a bracket.  The source instead decodes with invalid
sequences dropped (`errors="ignore"`). -/
def specJsonRule (data : List Nat) : Bool :=
  let t := pystrip (utf8Replace (data.take 100))
  startsWithL [123] t || startsWithL [91] t

/-- C8, counterexample.  On the 10-byte buffer starting with the invalid
byte 0xFF followed by JSON text the classifier answers JSON (the invalid
byte is dropped), while under the replacement reading of the claim the
stripped text starts with U+FFFD, so the claimed equivalence fails. -/
theorem claim8_cex :
    detect_file_type cex8bytes = FileType.json ∧ specJsonRule cex8bytes = false := by
  decide

/-- C8 as amended.  For buffers of at least the minimum length on which no
earlier rule fires, the classifier answers JSON exactly when the first 100
bytes, decoded permissively as UTF-8 with invalid byte sequences DROPPED
rather than rejected and stripped of surrounding whitespace, start with a
brace or a bracket. -/
theorem claim8_amended (data : List Nat) (h10 : 10 ≤ data.length)
    (h1 : data.take 4 ≠ [37, 80, 68, 70])
    (h2 : data.take 5 ≠ [60, 63, 120, 109, 108])
    (h3 : ¬ (data.take 2 = [255, 254] ∧ (data.take 20).contains 60 ∧
      (data.take 20).contains 63 ∧ probeLE data))
    (h4 : ¬ (data.take 2 = [254, 255] ∧ probeBE data))
    (h5 : htmlRule data = false) :
    detect_file_type data = FileType.json ↔ jsonRule data = true := by
  have hlen : ¬ data.length < 10 := by omega
  have h5n : ¬ (htmlRule data = true) := by simp [h5]
  simp only [detect_file_type, if_neg hlen, detectLong, if_neg h1, if_neg h2,
    if_neg h3, if_neg h4, if_neg h5n]
  cases hj : jsonRule data <;> simp [hj]

/-- Witness for C8 as amended on a concrete JSON buffer. -/
theorem claim8_amended_witness :
    detect_file_type json10 = FileType.json ↔ jsonRule json10 = true :=
  claim8_amended json10 (by decide) (by decide) (by decide) (by decide)
    (by decide) (by decide)

/-! ## Claims about the extractor -/

/-- Bytes of the document `<a><StudyData>JVBERi0=</StudyData></a>`. -/
def docA : List Nat :=
  [60, 97, 62, 60, 83, 116, 117, 100, 121, 68, 97, 116, 97, 62, 74, 86, 66,
   69, 82, 105, 48, 61, 60, 47, 83, 116, 117, 100, 121, 68, 97, 116, 97, 62,
   60, 47, 97, 62]

/-- Bytes FF FE 00: an odd-length buffer behind a UTF-16 byte-order mark,
which fails the strict decode. -/
def badBom : List Nat := [255, 254, 0]

/-- Bytes of the non-XML text `notxml`. -/
def notXmlBytes : List Nat := [110, 111, 116, 120, 109, 108]

/-- Bytes of `<a></a>`: no StudyData element. -/
def emptyDoc : List Nat := [60, 97, 62, 60, 47, 97, 62]

/-- Bytes of `<a><StudyData>  </StudyData></a>`: whitespace-only carrier
text. -/
def wsDoc : List Nat :=
  [60, 97, 62, 60, 83, 116, 117, 100, 121, 68, 97, 116, 97, 62, 32, 32, 60,
   47, 83, 116, 117, 100, 121, 68, 97, 116, 97, 62, 60, 47, 97, 62]

/-- Bytes of `<a><StudyData>hello</StudyData></a>`: carrier text without the
JVBERi head. -/
def helloDoc : List Nat :=
  [60, 97, 62, 60, 83, 116, 117, 100, 121, 68, 97, 116, 97, 62, 104, 101,
   108, 108, 111, 60, 47, 83, 116, 117, 100, 121, 68, 97, 116, 97, 62, 60,
   47, 97, 62]

/-- Bytes of `<a><StudyData>JVBERi0</StudyData></a>`: carrier text with the
JVBERi head but invalid base64 padding (7 characters). -/
def padErrDoc : List Nat :=
  [60, 97, 62, 60, 83, 116, 117, 100, 121, 68, 97, 116, 97, 62, 74, 86, 66,
   69, 82, 105, 48, 60, 47, 83, 116, 117, 100, 121, 68, 97, 116, 97, 62, 60,
   47, 97, 62]

/-- Bytes of `<a><StudyData>aGVsbG8=</StudyData></a>`: valid base64 that
decodes to `hello`, not to a PDF. -/
def b64helloDoc : List Nat :=
  [60, 97, 62, 60, 83, 116, 117, 100, 121, 68, 97, 116, 97, 62, 97, 71, 86,
   115, 98, 71, 56, 61, 60, 47, 83, 116, 117, 100, 121, 68, 97, 116, 97, 62,
   60, 47, 97, 62]

theorem startsWithL_take :
    ∀ (pre l : List Nat), startsWithL pre l = true → l.take pre.length = pre := by
  intro pre
  induction pre with
  | nil => intro l h; simp
  | cons p ps ih =>
    intro l h
    cases l with
    | nil => simp [startsWithL] at h
    | cons x xs =>
      simp only [startsWithL, Bool.and_eq_true, beq_iff_eq] at h
      obtain ⟨rfl, h2⟩ := h
      simp [List.take_succ_cons, ih xs h2]

/-- The quad machine only ever appends to its output accumulator. -/
theorem b64run_out :
    ∀ (input : List Nat) (qp acc pads : Nat) (out bs : List Nat),
      b64run input qp acc pads out = some bs → ∃ suf, bs = out ++ suf := by
  intro input
  induction input with
  | nil =>
    intro qp acc pads out bs h
    simp only [b64run] at h
    split at h
    · exact ⟨[], by injection h with h2; rw [h2]; simp⟩
    · exact absurd h (by simp)
  | cons c rest ih =>
    intro qp acc pads out bs h
    simp only [b64run] at h
    split at h
    · split at h
      · split at h
        · exact ⟨[], by injection h with h2; rw [h2]; simp⟩
        · exact ih _ _ _ _ _ h
      · exact ih _ _ _ _ _ h
    · split at h
      · exact ih _ _ _ _ _ h
      · split at h
        · exact ih _ _ _ _ _ h
        · obtain ⟨suf, rfl⟩ := ih _ _ _ _ _ h
          exact ⟨_, List.append_assoc _ _ _⟩
        · obtain ⟨suf, rfl⟩ := ih _ _ _ _ _ h
          exact ⟨_, List.append_assoc _ _ _⟩
        · obtain ⟨suf, rfl⟩ := ih _ _ _ _ _ h
          exact ⟨_, List.append_assoc _ _ _⟩

/-- Any text whose head is the six characters `JVBERi` decodes, when the
decode succeeds at all, to bytes whose head is the PDF signature: the first
six alphabet characters already fix the first four output bytes. -/
theorem jvberi_forces_pdf (t bs : List Nat)
    (hsw : startsWithL jvberiNeedle t = true)
    (hb : b64decodeStr t = some bs) : bs.take 4 = pdfSigBytes := by
  have h6 := startsWithL_take _ _ hsw
  have ht : t = jvberiNeedle ++ t.drop 6 := by
    conv_lhs => rw [← List.take_append_drop 6 t]
    rw [show jvberiNeedle.length = 6 from rfl] at h6
    rw [h6]
  rw [ht] at hb
  rw [b64decodeStr] at hb
  split at hb
  · rw [show b64run (jvberiNeedle ++ t.drop 6) 0 0 0 [] =
        b64run (t.drop 6) 2 2 0 [37, 80, 68, 70] from rfl] at hb
    obtain ⟨suf, rfl⟩ := b64run_out _ _ _ _ _ _ hb
    simp [pdfSigBytes]
  · exact absurd hb (by simp)

/-- C3.  Whenever the extractor returns a present document, its first four
bytes are exactly the PDF signature: the source verifies the signature
before returning. -/
theorem claim3_verified_artifact (data bs : List Nat)
    (h : extract_pdf_from_xml data = some bs) : bs.take 4 = pdfSigBytes := by
  unfold extract_pdf_from_xml at h
  split at h
  · exact absurd h (by simp)
  split at h
  · exact absurd h (by simp)
  split at h
  · exact absurd h (by simp)
  dsimp only at h
  split at h
  · exact absurd h (by simp)
  split at h
  · split at h
    · exact absurd h (by simp)
    split at h
    · rename_i hsw
      injection h with h2
      subst h2
      exact startsWithL_take _ _ hsw
    · exact absurd h (by simp)
  · exact absurd h (by simp)

/-- Witness for C3 at a concrete document with an embedded PDF head. -/
theorem claim3_verified_artifact_witness :
    extract_pdf_from_xml docA = some [37, 80, 68, 70, 45] ∧
    ([37, 80, 68, 70, 45] : List Nat).take 4 = pdfSigBytes :=
  ⟨rfl, claim3_verified_artifact docA [37, 80, 68, 70, 45] rfl⟩

/-- C2.  Every failure branch of the extractor returns an absent result:
undecodable bytes, malformed XML, a missing StudyData element, empty or
whitespace-only carrier text, text without the JVBERi head, a base64 decode
error, and a decoded result without the PDF signature all yield `none`.  In
the model the extractor is a total function into an option, so no error can
propagate. -/
theorem claim2_graceful (data : List Nat) :
    (decodeXmlBytes data = none → extract_pdf_from_xml data = none) ∧
    (∀ t, decodeXmlBytes data = some t → parseXML t = none →
      extract_pdf_from_xml data = none) ∧
    (∀ t root, decodeXmlBytes data = some t → parseXML t = some root →
      findInList studyDataTag root.childrenOf = none →
      extract_pdf_from_xml data = none) ∧
    (∀ t root el, decodeXmlBytes data = some t → parseXML t = some root →
      findInList studyDataTag root.childrenOf = some el →
      pystrip el.textOf = [] → extract_pdf_from_xml data = none) ∧
    (∀ t root el, decodeXmlBytes data = some t → parseXML t = some root →
      findInList studyDataTag root.childrenOf = some el →
      startsWithL jvberiNeedle (pystrip el.textOf) = false →
      extract_pdf_from_xml data = none) ∧
    (∀ t root el, decodeXmlBytes data = some t → parseXML t = some root →
      findInList studyDataTag root.childrenOf = some el →
      b64decodeStr (pystrip el.textOf) = none →
      extract_pdf_from_xml data = none) ∧
    (∀ t root el bs, decodeXmlBytes data = some t → parseXML t = some root →
      findInList studyDataTag root.childrenOf = some el →
      b64decodeStr (pystrip el.textOf) = some bs → bs.take 4 ≠ pdfSigBytes →
      extract_pdf_from_xml data = none) := by
  refine ⟨?_, ?_, ?_, ?_, ?_, ?_, ?_⟩
  · intro h
    simp [extract_pdf_from_xml, h]
  · intro t h1 h2
    simp [extract_pdf_from_xml, h1, h2]
  · intro t root h1 h2 h3
    simp [extract_pdf_from_xml, h1, h2, h3]
  · intro t root el h1 h2 h3 h4
    simp [extract_pdf_from_xml, h1, h2, h3, h4]
  · intro t root el h1 h2 h3 h5
    simp [extract_pdf_from_xml, h1, h2, h3, h5]
  · intro t root el h1 h2 h3 h6
    simp [extract_pdf_from_xml, h1, h2, h3, h6]
  · intro t root el bs h1 h2 h3 hb hne
    by_cases hsw : startsWithL jvberiNeedle (pystrip el.textOf) = true
    · exact absurd (jvberi_forces_pdf _ _ hsw hb) hne
    · have hsw2 : startsWithL jvberiNeedle (pystrip el.textOf) = false := by
        simpa using hsw
      simp [extract_pdf_from_xml, h1, h2, h3, hsw2]

/-- Witness for C2, one concrete input per failure branch. -/
theorem claim2_graceful_witness :
    extract_pdf_from_xml badBom = none ∧
    extract_pdf_from_xml notXmlBytes = none ∧
    extract_pdf_from_xml emptyDoc = none ∧
    extract_pdf_from_xml wsDoc = none ∧
    extract_pdf_from_xml helloDoc = none ∧
    extract_pdf_from_xml padErrDoc = none ∧
    extract_pdf_from_xml b64helloDoc = none :=
  ⟨(claim2_graceful badBom).1 rfl,
   (claim2_graceful notXmlBytes).2.1 notXmlBytes rfl rfl,
   (claim2_graceful emptyDoc).2.2.1 emptyDoc (Elem.mk [97] [] [] []) rfl rfl rfl,
   (claim2_graceful wsDoc).2.2.2.1 wsDoc
     (Elem.mk [97] [] [] [Elem.mk studyDataTag [] [32, 32] []])
     (Elem.mk studyDataTag [] [32, 32] []) rfl rfl rfl rfl,
   (claim2_graceful helloDoc).2.2.2.2.1 helloDoc
     (Elem.mk [97] [] [] [Elem.mk studyDataTag [] [104, 101, 108, 108, 111] []])
     (Elem.mk studyDataTag [] [104, 101, 108, 108, 111] []) rfl rfl rfl rfl,
   (claim2_graceful padErrDoc).2.2.2.2.2.1 padErrDoc
     (Elem.mk [97] [] [] [Elem.mk studyDataTag [] [74, 86, 66, 69, 82, 105, 48] []])
     (Elem.mk studyDataTag [] [74, 86, 66, 69, 82, 105, 48] []) rfl rfl rfl rfl,
   (claim2_graceful b64helloDoc).2.2.2.2.2.2 b64helloDoc
     (Elem.mk [97] [] [] [Elem.mk studyDataTag [] [97, 71, 86, 115, 98, 71, 56, 61] []])
     (Elem.mk studyDataTag [] [97, 71, 86, 115, 98, 71, 56, 61] [])
     [104, 101, 108, 108, 111] rfl rfl rfl rfl (by decide)⟩

/-- Bytes of `<a><StudyData>JVBERi0x!</StudyData></a>`: the carrier text
contains the character `!`, which is outside the base64 alphabet. -/
def cex7doc : List Nat :=
  [60, 97, 62, 60, 83, 116, 117, 100, 121, 68, 97, 116, 97, 62, 74, 86, 66,
   69, 82, 105, 48, 120, 33, 60, 47, 83, 116, 117, 100, 121, 68, 97, 116, 97,
   62, 60, 47, 97, 62]

/-- C7, counterexample.  The carrier text `JVBERi0x!` contains a character
outside the base64 alphabet, yet the extractor does not return an absent
result: `base64.b64decode` discards the character and the extractor returns
the decoded document. -/
theorem claim7_cex :
    parseXML cex7doc = some (Elem.mk [97] [] []
      [Elem.mk studyDataTag [] [74, 86, 66, 69, 82, 105, 48, 120, 33] []]) ∧
    b64val 33 = none ∧ (33 : Nat) ≠ 61 ∧
    extract_pdf_from_xml cex7doc = some [37, 80, 68, 70, 45, 49] :=
  ⟨rfl, rfl, by decide, rfl⟩

/-- C7 as amended.  A character outside the base64 alphabet (and distinct
from the padding character) is discarded by the quad machine and does not by
itself cause a decode error; when the decode does fail (invalid padding or
length after discarding, or a non-ASCII character), the extractor returns an
absent result rather than raising. -/
theorem claim7_amended :
    (∀ (c : Nat) (input : List Nat) (qp acc pads : Nat) (out : List Nat),
      b64val c = none → c ≠ 61 →
      b64run (c :: input) qp acc pads out = b64run input qp acc pads out) ∧
    (∀ (data t : List Nat) (root el : Elem),
      decodeXmlBytes data = some t → parseXML t = some root →
      findInList studyDataTag root.childrenOf = some el →
      startsWithL jvberiNeedle (pystrip el.textOf) = true →
      b64decodeStr (pystrip el.textOf) = none →
      extract_pdf_from_xml data = none) := by
  constructor
  · intro c input qp acc pads out hval h61
    simp [b64run, h61, hval]
  · intro data t root el h1 h2 h3 hsw h6
    simp [extract_pdf_from_xml, h1, h2, h3, h6]

/-- Witness for C7 as amended: the discarded character 33 and the
invalid-padding document. -/
theorem claim7_amended_witness :
    b64run [33] 0 0 0 [] = b64run [] 0 0 0 [] ∧
    extract_pdf_from_xml padErrDoc = none :=
  ⟨claim7_amended.1 33 [] 0 0 0 [] rfl (by decide),
   claim7_amended.2 padErrDoc padErrDoc
     (Elem.mk [97] [] [] [Elem.mk studyDataTag [] [74, 86, 66, 69, 82, 105, 48] []])
     (Elem.mk studyDataTag [] [74, 86, 66, 69, 82, 105, 48] [])
     rfl rfl rfl rfl rfl⟩

/-- Bytes of `<StudyData>JVBERi0=</StudyData>`: the root element itself is
the carrier element and holds a valid base64 PDF head. -/
def cex6doc : List Nat :=
  [60, 83, 116, 117, 100, 121, 68, 97, 116, 97, 62, 74, 86, 66, 69, 82, 105,
   48, 61, 60, 47, 83, 116, 117, 100, 121, 68, 97, 116, 97, 62]

/-- C6, counterexample.  A document whose root element is named StudyData,
with non-empty text holding a valid base64 PDF head, still yields an absent
result: `find(".//StudyData")` searches only proper descendants of the
root, so the claim that the first element anywhere in the tree is located —
the root included — is false. -/
theorem claim6_cex :
    decodeXmlBytes cex6doc = some cex6doc ∧
    parseXML cex6doc =
      some (Elem.mk studyDataTag [] [74, 86, 66, 69, 82, 105, 48, 61] []) ∧
    pystrip [74, 86, 66, 69, 82, 105, 48, 61] ≠ [] ∧
    b64decodeStr [74, 86, 66, 69, 82, 105, 48, 61] = some [37, 80, 68, 70, 45] ∧
    extract_pdf_from_xml cex6doc = none :=
  ⟨rfl, rfl, by decide, rfl, rfl⟩

/-- The search of `find(".//StudyData")`, when it answers, returns an
element of the searched forest (at any depth, in document order) whose tag
is exactly StudyData. -/
theorem findInList_mem (t : List Nat) :
    ∀ (l : List Elem) (e : Elem), findInList t l = some e →
      e ∈ descList l ∧ e.tagOf = t := by
  suffices key : ∀ (n : Nat) (l : List Elem), sizeOf l ≤ n → ∀ e,
      findInList t l = some e → e ∈ descList l ∧ e.tagOf = t by
    intro l e h
    exact key (sizeOf l) l le_rfl e h
  intro n
  induction n with
  | zero =>
    intro l hl e h
    cases l with
    | nil => simp [findInList] at h
    | cons c rest => simp at hl
  | succ n ih =>
    intro l hl e h
    cases l with
    | nil => simp [findInList] at h
    | cons c rest =>
      obtain ⟨tag, attrs, text, children⟩ := c
      simp only [findInList, findInElem] at h
      simp only [List.cons.sizeOf_spec, Elem.mk.sizeOf_spec] at hl
      by_cases htag : tag = t
      · rw [if_pos htag] at h
        injection h with h2
        subst h2
        constructor
        · simp [descList, descElem]
        · simpa [Elem.tagOf] using htag
      · rw [if_neg htag] at h
        cases hc : findInList t children with
        | some e2 =>
          rw [hc] at h
          injection h with h2
          subst h2
          have hres := ih children (by omega) e2 hc
          exact ⟨by simp [descList, descElem, hres.1], hres.2⟩
        | none =>
          rw [hc] at h
          have hres := ih rest (by omega) e h
          exact ⟨by simp [descList, descElem, hres.1], hres.2⟩

/-- When the search answers nothing, no element of the forest, at any
depth, carries the searched tag. -/
theorem findInList_none (t : List Nat) :
    ∀ (l : List Elem), findInList t l = none →
      ∀ e, e ∈ descList l → e.tagOf ≠ t := by
  suffices key : ∀ (n : Nat) (l : List Elem), sizeOf l ≤ n →
      findInList t l = none → ∀ e, e ∈ descList l → e.tagOf ≠ t by
    intro l h e hm
    exact key (sizeOf l) l le_rfl h e hm
  intro n
  induction n with
  | zero =>
    intro l hl h e hm
    cases l with
    | nil => simp [descList] at hm
    | cons c rest => simp at hl
  | succ n ih =>
    intro l hl h e hm
    cases l with
    | nil => simp [descList] at hm
    | cons c rest =>
      obtain ⟨tag, attrs, text, children⟩ := c
      simp only [findInList, findInElem] at h
      simp only [List.cons.sizeOf_spec, Elem.mk.sizeOf_spec] at hl
      by_cases htag : tag = t
      · rw [if_pos htag] at h
        exact absurd h (by simp)
      · rw [if_neg htag] at h
        cases hc : findInList t children with
        | some e2 => rw [hc] at h; exact absurd h (by simp)
        | none =>
          rw [hc] at h
          simp only [descList, descElem, List.mem_append, List.mem_cons] at hm
          rcases hm with (rfl | hm) | hm
          · simpa [Elem.tagOf] using htag
          · exact ih children (by omega) hc e hm
          · exact ih rest (by omega) h e hm

/-- The search of `find(".//tag")` is exactly the first match, in document
order, over all elements of the searched forest at any depth: it equals
`find?` on the document-order listing. -/
theorem findInList_eq_find? (t : List Nat) :
    ∀ l : List Elem, findInList t l = (descList l).find? (fun e => e.tagOf == t) := by
  suffices key : ∀ (n : Nat) (l : List Elem), sizeOf l ≤ n →
      findInList t l = (descList l).find? (fun e => e.tagOf == t) by
    intro l
    exact key (sizeOf l) l le_rfl
  intro n
  induction n with
  | zero =>
    intro l hl
    cases l with
    | nil => rfl
    | cons c rest => simp at hl
  | succ n ih =>
    intro l hl
    cases l with
    | nil => rfl
    | cons c rest =>
      obtain ⟨tag, attrs, text, children⟩ := c
      simp only [List.cons.sizeOf_spec, Elem.mk.sizeOf_spec] at hl
      simp only [findInList, findInElem, descList, descElem, List.cons_append]
      by_cases htag : tag = t
      · rw [if_pos htag]
        rw [List.find?_cons_of_pos _ (by simp [Elem.tagOf, htag])]
      · rw [if_neg htag]
        rw [List.find?_cons_of_neg _ (by simp [Elem.tagOf, htag])]
        rw [List.find?_append]
        rw [← ih children (by omega), ← ih rest (by omega)]
        cases hc : findInList t children <;> simp [Option.or]

/-- An element that carries a default namespace declaration with a non-empty
uri (and a prefix-free name) resolves to the tag `{uri}name`, which never
equals the unprefixed `StudyData`. -/
theorem applyNsE_ns_tag (d uri tag : List Nat)
    (attrs : List (List Nat × List Nat)) (text : List Nat)
    (children : List Elem)
    (hx : attrs.lookup xmlnsName = some uri) (hu : uri ≠ [])
    (hc : tag.contains 58 = false) :
    (applyNsE d (Elem.mk tag attrs text children)).tagOf =
      123 :: (uri ++ 125 :: tag) ∧
    (applyNsE d (Elem.mk tag attrs text children)).tagOf ≠ studyDataTag := by
  have h1 : (applyNsE d (Elem.mk tag attrs text children)).tagOf =
      123 :: (uri ++ 125 :: tag) := by
    simp only [applyNsE, hx, Elem.tagOf]
    rw [if_pos ⟨hu, by rw [hc]; simp⟩]
  refine ⟨h1, ?_⟩
  rw [h1]
  intro h2
  rw [studyDataTag] at h2
  exact absurd (List.head_eq_of_cons_eq h2) (by decide)

/-- Bytes of `<a><StudyData xmlns="http://u">JVBERi0=</StudyData></a>`: the
carrier element sits in a default namespace. -/
def nsDoc : List Nat :=
  [60, 97, 62, 60, 83, 116, 117, 100, 121, 68, 97, 116, 97, 32, 120, 109, 108,
   110, 115, 61, 34, 104, 116, 116, 112, 58, 47, 47, 117, 34, 62, 74, 86, 66,
   69, 82, 105, 48, 61, 60, 47, 83, 116, 117, 100, 121, 68, 97, 116, 97, 62,
   60, 47, 97, 62]

/-- C6 as amended.  The extractor searches the proper descendants of the
root for the FIRST element in document order, at any nesting depth, whose
parsed tag is exactly StudyData: the search equals `find?` over the
document-order listing of the forest of children.  The root itself is never
matched, an element whose parsed tag carries a namespace (parsed as
`{uri}StudyData`) never matches, and at this step the extractor returns
absent exactly when no such descendant exists or when the found element's
text is empty or whitespace-only. -/
theorem claim6_amended :
    (∀ (t : List Nat) (l : List Elem),
      findInList t l = (descList l).find? (fun e => e.tagOf == t)) ∧
    (∀ (d uri tag : List Nat) (attrs : List (List Nat × List Nat))
      (text : List Nat) (children : List Elem),
      attrs.lookup xmlnsName = some uri → uri ≠ [] →
      tag.contains 58 = false →
      (applyNsE d (Elem.mk tag attrs text children)).tagOf ≠ studyDataTag) ∧
    (∀ (data t : List Nat) (root : Elem),
      decodeXmlBytes data = some t → parseXML t = some root →
      findInList studyDataTag root.childrenOf = none →
      extract_pdf_from_xml data = none) ∧
    (∀ (data t : List Nat) (root el : Elem),
      decodeXmlBytes data = some t → parseXML t = some root →
      findInList studyDataTag root.childrenOf = some el →
      pystrip el.textOf = [] → extract_pdf_from_xml data = none) ∧
    extract_pdf_from_xml nsDoc = none := by
  refine ⟨findInList_eq_find?, ?_, ?_, ?_, rfl⟩
  · intro d uri tag attrs text children hx hu hc
    exact (applyNsE_ns_tag d uri tag attrs text children hx hu hc).2
  · intro data t root h1 h2 h3
    simp [extract_pdf_from_xml, h1, h2, h3]
  · intro data t root el h1 h2 h3 h4
    simp [extract_pdf_from_xml, h1, h2, h3, h4]

/-- Witness for C6 as amended: a namespaced carrier element whose resolved
tag fails to match, and the two concrete absent documents. -/
theorem claim6_amended_witness :
    (applyNsE [] (Elem.mk studyDataTag
        [([120, 109, 108, 110, 115], [104])] [] [])).tagOf ≠ studyDataTag ∧
    extract_pdf_from_xml emptyDoc = none ∧
    extract_pdf_from_xml wsDoc = none :=
  ⟨claim6_amended.2.1 [] [104] studyDataTag
      [([120, 109, 108, 110, 115], [104])] [] [] rfl (by decide) (by decide),
   claim6_amended.2.2.1 emptyDoc emptyDoc (Elem.mk [97] [] [] []) rfl rfl rfl,
   claim6_amended.2.2.2.1 wsDoc wsDoc
      (Elem.mk [97] [] [] [Elem.mk studyDataTag [] [32, 32] []])
      (Elem.mk studyDataTag [] [32, 32] []) rfl rfl rfl rfl⟩

theorem b64chr_facts : ∀ v : Nat, v < 64 →
    b64val (b64chr v) = some v ∧ b64chr v ≠ 61 ∧ b64chr v ≠ 60 ∧
    b64chr v < 128 ∧ isPySpace (b64chr v) = false := by decide

theorem b64run_d0 (v : Nat) (hv : v < 64) (input : List Nat)
    (acc pads : Nat) (out : List Nat) :
    b64run (b64chr v :: input) 0 acc pads out = b64run input 1 v pads out := by
  simp [b64run, (b64chr_facts v hv).2.1, (b64chr_facts v hv).1]

theorem b64run_d1 (v : Nat) (hv : v < 64) (input : List Nat)
    (acc pads : Nat) (out : List Nat) :
    b64run (b64chr v :: input) 1 acc pads out =
      b64run input 2 (v % 16) pads (out ++ [acc * 4 + v / 16]) := by
  simp [b64run, (b64chr_facts v hv).2.1, (b64chr_facts v hv).1]

theorem b64run_d2 (v : Nat) (hv : v < 64) (input : List Nat)
    (acc pads : Nat) (out : List Nat) :
    b64run (b64chr v :: input) 2 acc pads out =
      b64run input 3 (v % 4) pads (out ++ [acc * 16 + v / 4]) := by
  simp [b64run, (b64chr_facts v hv).2.1, (b64chr_facts v hv).1]

theorem b64run_d3 (v : Nat) (hv : v < 64) (input : List Nat)
    (acc pads : Nat) (out : List Nat) :
    b64run (b64chr v :: input) 3 acc pads out =
      b64run input 0 0 pads (out ++ [acc * 64 + v]) := by
  simp [b64run, (b64chr_facts v hv).2.1, (b64chr_facts v hv).1]

theorem b64run_pad2_0 (input : List Nat) (acc : Nat) (out : List Nat) :
    b64run (61 :: input) 2 acc 0 out = b64run input 2 acc 1 out := by
  simp [b64run]

theorem b64run_pad2_1 (input : List Nat) (acc : Nat) (out : List Nat) :
    b64run (61 :: input) 2 acc 1 out = some out := by
  simp [b64run]

theorem b64run_pad3_0 (input : List Nat) (acc : Nat) (out : List Nat) :
    b64run (61 :: input) 3 acc 0 out = some out := by
  simp [b64run]

theorem b64run_chunk (a b c : Nat) (ha : a < 256) (hb : b < 256) (hc : c < 256)
    (input out : List Nat) :
    b64run (b64chr (a / 4) :: b64chr ((a % 4) * 16 + b / 16) ::
      b64chr ((b % 16) * 4 + c / 64) :: b64chr (c % 64) :: input) 0 0 0 out =
      b64run input 0 0 0 (out ++ [a, b, c]) := by
  rw [b64run_d0 _ (by omega), b64run_d1 _ (by omega), b64run_d2 _ (by omega),
    b64run_d3 _ (by omega)]
  have e1 : a / 4 * 4 + ((a % 4) * 16 + b / 16) / 16 = a := by omega
  have e2 : ((a % 4) * 16 + b / 16) % 16 * 16 + ((b % 16) * 4 + c / 64) / 4 = b := by
    omega
  have e3 : ((b % 16) * 4 + c / 64) % 4 * 64 + c % 64 = c := by omega
  rw [e1, e2, e3]
  simp

theorem b64run_tail1 (a : Nat) (ha : a < 256) (out : List Nat) :
    b64run (b64encode [a]) 0 0 0 out = some (out ++ [a]) := by
  rw [show b64encode [a] =
      b64chr (a / 4) :: b64chr ((a % 4) * 16) :: 61 :: 61 :: [] from rfl]
  rw [b64run_d0 _ (by omega), b64run_d1 _ (by omega), b64run_pad2_0,
    b64run_pad2_1]
  have e1 : a / 4 * 4 + (a % 4) * 16 / 16 = a := by omega
  rw [e1]

theorem b64run_tail2 (a b : Nat) (ha : a < 256) (hb : b < 256) (out : List Nat) :
    b64run (b64encode [a, b]) 0 0 0 out = some (out ++ [a, b]) := by
  rw [show b64encode [a, b] = b64chr (a / 4) :: b64chr ((a % 4) * 16 + b / 16) ::
      b64chr ((b % 16) * 4) :: 61 :: [] from rfl]
  rw [b64run_d0 _ (by omega), b64run_d1 _ (by omega), b64run_d2 _ (by omega),
    b64run_pad3_0]
  have e1 : a / 4 * 4 + ((a % 4) * 16 + b / 16) / 16 = a := by omega
  have e2 : ((a % 4) * 16 + b / 16) % 16 * 16 + (b % 16) * 4 / 4 = b := by omega
  rw [e1, e2]
  simp

theorem b64run_encode :
    ∀ (p : List Nat), (∀ x ∈ p, x < 256) → ∀ out : List Nat,
      b64run (b64encode p) 0 0 0 out = some (out ++ p) := by
  suffices key : ∀ (n : Nat) (p : List Nat), p.length ≤ n →
      (∀ x ∈ p, x < 256) → ∀ out : List Nat,
      b64run (b64encode p) 0 0 0 out = some (out ++ p) by
    intro p h out
    exact key p.length p le_rfl h out
  intro n
  induction n with
  | zero =>
    intro p hl h out
    match p with
    | [] => simp [b64encode, b64run]
    | x :: r => simp at hl
  | succ n ih =>
    intro p hl h out
    match p with
    | [] => simp [b64encode, b64run]
    | [a] => exact b64run_tail1 a (h a (by simp)) out
    | [a, b] => exact b64run_tail2 a b (h a (by simp)) (h b (by simp)) out
    | a :: b :: c :: rest =>
      rw [show b64encode (a :: b :: c :: rest) =
          b64chr (a / 4) :: b64chr ((a % 4) * 16 + b / 16) ::
          b64chr ((b % 16) * 4 + c / 64) :: b64chr (c % 64) ::
          b64encode rest from rfl]
      rw [b64run_chunk a b c (h a (by simp)) (h b (by simp)) (h c (by simp))]
      rw [ih rest (by simp at hl ⊢; omega) (fun x hx => h x (by simp [hx]))]
      simp

theorem b64encode_chars :
    ∀ (p : List Nat), (∀ x ∈ p, x < 256) →
      ∀ c ∈ b64encode p, c ≠ 60 ∧ c < 128 ∧ isPySpace c = false := by
  suffices key : ∀ (n : Nat) (p : List Nat), p.length ≤ n →
      (∀ x ∈ p, x < 256) →
      ∀ c ∈ b64encode p, c ≠ 60 ∧ c < 128 ∧ isPySpace c = false by
    intro p h c hc
    exact key p.length p le_rfl h c hc
  have h61 : (61 : Nat) ≠ 60 ∧ (61 : Nat) < 128 ∧ isPySpace 61 = false := by decide
  intro n
  induction n with
  | zero =>
    intro p hl h c hc
    match p with
    | [] => simp [b64encode] at hc
    | x :: r => simp at hl
  | succ n ih =>
    intro p hl h c hc
    have hOf : ∀ v : Nat, v < 64 → b64chr v ≠ 60 ∧ b64chr v < 128 ∧
        isPySpace (b64chr v) = false := by
      intro v hv
      exact ⟨(b64chr_facts v hv).2.2.1, (b64chr_facts v hv).2.2.2.1,
        (b64chr_facts v hv).2.2.2.2⟩
    match p with
    | [] => simp [b64encode] at hc
    | [a] =>
      have ha := h a (by simp)
      simp only [b64encode, List.mem_cons, List.not_mem_nil, or_false] at hc
      rcases hc with rfl | rfl | rfl | rfl
      · exact hOf _ (by omega)
      · exact hOf _ (by omega)
      · exact h61
      · exact h61
    | [a, b] =>
      have ha := h a (by simp)
      have hb := h b (by simp)
      simp only [b64encode, List.mem_cons, List.not_mem_nil, or_false] at hc
      rcases hc with rfl | rfl | rfl | rfl
      · exact hOf _ (by omega)
      · exact hOf _ (by omega)
      · exact hOf _ (by omega)
      · exact h61
    | a :: b :: c2 :: rest =>
      have ha := h a (by simp)
      have hb := h b (by simp)
      have hc2 := h c2 (by simp)
      rw [show b64encode (a :: b :: c2 :: rest) =
          b64chr (a / 4) :: b64chr ((a % 4) * 16 + b / 16) ::
          b64chr ((b % 16) * 4 + c2 / 64) :: b64chr (c2 % 64) ::
          b64encode rest from rfl] at hc
      simp only [List.mem_cons] at hc
      rcases hc with rfl | rfl | rfl | rfl | hc
      · exact hOf _ (by omega)
      · exact hOf _ (by omega)
      · exact hOf _ (by omega)
      · exact hOf _ (by omega)
      · exact ih rest (by simp at hl ⊢; omega) (fun x hx => h x (by simp [hx])) c hc

theorem b64_roundtrip (p : List Nat) (h : ∀ x ∈ p, x < 256) :
    b64decodeStr (b64encode p) = some p := by
  rw [b64decodeStr, if_pos]
  · rw [b64run_encode p h []]
    simp
  · rw [List.all_eq_true]
    intro c hc
    simpa using (b64encode_chars p h c hc).2.1

/-- Bytes of the ASCII text `<Root><StudyData>`. -/
def studyPre : List Nat :=
  [60, 82, 111, 111, 116, 62, 60, 83, 116, 117, 100, 121, 68, 97, 116, 97, 62]

/-- Bytes of the ASCII text `</StudyData></Root>`. -/
def studySuf : List Nat :=
  [60, 47, 83, 116, 117, 100, 121, 68, 97, 116, 97, 62, 60, 47, 82, 111, 111, 116, 62]

/-- Minimal well-formed XML document embedding `t` as the text content of a
StudyData element. -/
def wrapStudyData (t : List Nat) : List Nat := studyPre ++ t ++ studySuf

theorem takeWhile_all_append (f : Nat → Bool) (l r : List Nat)
    (h : ∀ c ∈ l, f c = true) : (l ++ r).takeWhile f = l ++ r.takeWhile f := by
  induction l with
  | nil => simp
  | cons a l ih =>
    have ha : f a = true := h a (by simp)
    simp only [List.cons_append, List.takeWhile_cons, ha, if_true]
    rw [ih (fun c hc => h c (by simp [hc]))]

theorem dropWhile_all_append (f : Nat → Bool) (l r : List Nat)
    (h : ∀ c ∈ l, f c = true) : (l ++ r).dropWhile f = r.dropWhile f := by
  induction l with
  | nil => simp
  | cons a l ih =>
    have ha : f a = true := h a (by simp)
    simp only [List.cons_append, List.dropWhile_cons, ha, if_true]
    exact ih (fun c hc => h c (by simp [hc]))

theorem parseContent_text (k : Nat) (t rest2 : List Nat)
    (h : ∀ c ∈ t, (c != 60) = true) :
    parseContent (k + 1) (t ++ 60 :: 47 :: rest2) = some (t, [], rest2) := by
  simp only [parseContent]
  rw [takeWhile_all_append _ _ _ h, dropWhile_all_append _ _ _ h]
  simp

theorem parseElem_study (k : Nat) (t rest2 : List Nat)
    (h : ∀ c ∈ t, (c != 60) = true) :
    parseElem (k + 2)
      (60 :: 83 :: 116 :: 117 :: 100 :: 121 :: 68 :: 97 :: 116 :: 97 :: 62 ::
        (t ++ 60 :: 47 :: 83 :: 116 :: 117 :: 100 :: 121 :: 68 :: 97 :: 116 ::
          97 :: 62 :: rest2)) =
      some (Elem.mk studyDataTag [] t [], rest2) := by
  have h1 : parseElem (k + 2)
      (60 :: 83 :: 116 :: 117 :: 100 :: 121 :: 68 :: 97 :: 116 :: 97 :: 62 ::
        (t ++ 60 :: 47 :: 83 :: 116 :: 117 :: 100 :: 121 :: 68 :: 97 :: 116 ::
          97 :: 62 :: rest2)) =
      (match parseContent (k + 1)
          (t ++ 60 :: 47 :: (83 :: 116 :: 117 :: 100 :: 121 :: 68 :: 97 :: 116 ::
            97 :: 62 :: rest2)) with
       | some (text, children, s5) =>
         match (s5.dropWhile nameChar).dropWhile isXmlWs with
         | 62 :: s7 =>
           if s5.takeWhile nameChar = studyDataTag then
             some (Elem.mk studyDataTag [] text children, s7)
           else none
         | _ => none
       | none => none) := rfl
  rw [h1, parseContent_text k t _ h]
  rfl

theorem parseContent_inner (k : Nat) (t : List Nat)
    (h : ∀ c ∈ t, (c != 60) = true) :
    parseContent (k + 3)
      (60 :: 83 :: 116 :: 117 :: 100 :: 121 :: 68 :: 97 :: 116 :: 97 :: 62 ::
        (t ++ 60 :: 47 :: 83 :: 116 :: 117 :: 100 :: 121 :: 68 :: 97 :: 116 ::
          97 :: 62 :: (60 :: 47 :: 82 :: 111 :: 111 :: 116 :: 62 :: []))) =
      some ([], [Elem.mk studyDataTag [] t []],
        82 :: 111 :: 111 :: 116 :: 62 :: []) := by
  have h1 : parseContent (k + 3)
      (60 :: 83 :: 116 :: 117 :: 100 :: 121 :: 68 :: 97 :: 116 :: 97 :: 62 ::
        (t ++ 60 :: 47 :: 83 :: 116 :: 117 :: 100 :: 121 :: 68 :: 97 :: 116 ::
          97 :: 62 :: (60 :: 47 :: 82 :: 111 :: 111 :: 116 :: 62 :: []))) =
      (match parseElem (k + 2)
          (60 :: 83 :: 116 :: 117 :: 100 :: 121 :: 68 :: 97 :: 116 :: 97 :: 62 ::
            (t ++ 60 :: 47 :: 83 :: 116 :: 117 :: 100 :: 121 :: 68 :: 97 :: 116 ::
              97 :: 62 :: (60 :: 47 :: 82 :: 111 :: 111 :: 116 :: 62 :: []))) with
       | some (child, s2) =>
         match parseContent (k + 2) s2 with
         | some (_, children, s3) => some (([] : List Nat), child :: children, s3)
         | none => none
       | none => none) := rfl
  rw [h1, parseElem_study k t _ h]
  rfl

theorem parseElem_root (k : Nat) (t : List Nat)
    (h : ∀ c ∈ t, (c != 60) = true) :
    parseElem (k + 4) (wrapStudyData t) =
      some (Elem.mk [82, 111, 111, 116] [] []
        [Elem.mk studyDataTag [] t []], []) := by
  have h1 : parseElem (k + 4) (wrapStudyData t) =
      (match parseContent (k + 3)
          (60 :: 83 :: 116 :: 117 :: 100 :: 121 :: 68 :: 97 :: 116 :: 97 :: 62 ::
            (t ++ 60 :: 47 :: 83 :: 116 :: 117 :: 100 :: 121 :: 68 :: 97 :: 116 ::
              97 :: 62 :: (60 :: 47 :: 82 :: 111 :: 111 :: 116 :: 62 :: []))) with
       | some (text, children, s5) =>
         match (s5.dropWhile nameChar).dropWhile isXmlWs with
         | 62 :: s7 =>
           if s5.takeWhile nameChar = [82, 111, 111, 116] then
             some (Elem.mk [82, 111, 111, 116] [] text children, s7)
           else none
         | _ => none
       | none => none) := rfl
  rw [h1, parseContent_inner k t h]
  rfl

theorem parseXML_wrap (t : List Nat) (h : ∀ c ∈ t, (c != 60) = true) :
    parseXML (wrapStudyData t) =
      some (Elem.mk [82, 111, 111, 116] [] [] [Elem.mk studyDataTag [] t []]) := by
  have h0 : parseXML (wrapStudyData t) =
      (match parseElem ((wrapStudyData t).length + 1) (wrapStudyData t) with
       | some (root, rest) =>
         if rest.dropWhile isXmlWs = [] then some (applyNsE [] root) else none
       | none => none) := rfl
  rw [h0, show (wrapStudyData t).length + 1 = (t.length + 33) + 4 from by
    simp [wrapStudyData, studyPre, studySuf]]
  rw [parseElem_root (t.length + 33) t h]
  rfl

theorem utf8StrictF_ascii :
    ∀ (fuel : Nat) (l : List Nat), l.length < fuel → (∀ c ∈ l, c < 128) →
      utf8StrictF fuel l = some l := by
  intro fuel
  induction fuel with
  | zero => intro l hl h; omega
  | succ f ih =>
    intro l hl h
    cases l with
    | nil => rfl
    | cons b rest =>
      have hb : b < 128 := h b (by simp)
      rw [show utf8StrictF (f + 1) (b :: rest) =
          (match utf8Step b rest with
           | (some cp, rest2) => (utf8StrictF f rest2).map (cp :: ·)
           | (none, _) => none) from rfl]
      rw [show utf8Step b rest = (some b, rest) from by
        unfold utf8Step; rw [if_pos hb]]
      show (utf8StrictF f rest).map (b :: ·) = some (b :: rest)
      rw [ih rest (by simp at hl; omega) (fun c hc => h c (by simp [hc]))]
      rfl

theorem utf8Strict_ascii (l : List Nat) (h : ∀ c ∈ l, c < 128) :
    utf8Strict l = some l :=
  utf8StrictF_ascii (l.length + 1) l (by omega) h

theorem dropWhile_id_of_all (f : Nat → Bool) (l : List Nat)
    (h : ∀ c ∈ l, f c = false) : l.dropWhile f = l := by
  cases l with
  | nil => rfl
  | cons a rest => simp [List.dropWhile_cons, h a (by simp)]

theorem pystrip_id (l : List Nat) (h : ∀ c ∈ l, isPySpace c = false) :
    pystrip l = l := by
  unfold pystrip
  rw [dropWhile_id_of_all _ _ h,
    dropWhile_id_of_all _ _ (fun c hc => h c (by simpa using hc)),
    List.reverse_reverse]

theorem b64encode_jvberi (b5 : Nat) (rest : List Nat) (hb5 : 32 ≤ b5 ∧ b5 ≤ 47) :
    startsWithL jvberiNeedle (b64encode (37 :: 80 :: 68 :: 70 :: b5 :: rest)) =
      true := by
  have h2 : b5 / 16 = 2 := by omega
  cases rest with
  | nil =>
    rw [show b64encode [37, 80, 68, 70, b5] =
        74 :: 86 :: 66 :: 69 :: 82 :: b64chr (32 + b5 / 16) ::
        b64chr (b5 % 16 * 4) :: 61 :: [] from rfl]
    rw [h2]
    rfl
  | cons x rest2 =>
    rw [show b64encode (37 :: 80 :: 68 :: 70 :: b5 :: x :: rest2) =
        74 :: 86 :: 66 :: 69 :: 82 :: b64chr (32 + b5 / 16) ::
        b64chr (b5 % 16 * 4 + x / 64) :: b64chr (x % 64) ::
        b64encode rest2 from rfl]
    rw [h2]
    rfl

/-- C1 as amended.  Round-trip extraction holds for every byte sequence that
begins with the PDF signature AND whose fifth byte lies between 0x20 and
0x2F (as every real `%PDF-` header does): embedding its standard base64
encoding as the text of a StudyData element in a minimal well-formed XML
document and extracting returns exactly the original bytes.  The fifth-byte
restriction is forced by the `JVBERi` head check of the source, which a
four-byte `%PDF` or a fifth byte outside that range fails. -/
theorem claim1_amended (p : List Nat) (hbytes : ∀ x ∈ p, x < 256)
    (b5 : Nat) (rest : List Nat) (hp : p = 37 :: 80 :: 68 :: 70 :: b5 :: rest)
    (hb5 : 32 ≤ b5 ∧ b5 ≤ 47) :
    extract_pdf_from_xml (wrapStudyData (b64encode p)) = some p := by
  have hchars := b64encode_chars p hbytes
  have hascii : ∀ c ∈ wrapStudyData (b64encode p), c < 128 := by
    intro c hc
    simp only [wrapStudyData, List.append_assoc, List.mem_append] at hc
    rcases hc with hc | hc | hc
    · exact (by decide : ∀ c ∈ studyPre, c < 128) c hc
    · exact (hchars c hc).2.1
    · exact (by decide : ∀ c ∈ studySuf, c < 128) c hc
  have hdec : decodeXmlBytes (wrapStudyData (b64encode p)) =
      some (wrapStudyData (b64encode p)) := by
    rw [show decodeXmlBytes (wrapStudyData (b64encode p)) =
        utf8Strict (wrapStudyData (b64encode p)) from rfl]
    exact utf8Strict_ascii _ hascii
  have hne60 : ∀ c ∈ b64encode p, (c != 60) = true := fun c hc => by
    simpa using (hchars c hc).1
  have hparse := parseXML_wrap (b64encode p) hne60
  have hfind : findInList studyDataTag
      (Elem.mk [82, 111, 111, 116] [] []
        [Elem.mk studyDataTag [] (b64encode p) []]).childrenOf =
      some (Elem.mk studyDataTag [] (b64encode p) []) := rfl
  simp only [extract_pdf_from_xml, hdec, hparse, hfind, Elem.textOf]
  rw [pystrip_id _ (fun c hc => (hchars c hc).2.2)]
  have hnonempty : ¬ (b64encode p = []) := by
    rw [hp]
    rw [show b64encode (37 :: 80 :: 68 :: 70 :: b5 :: rest) =
        74 :: 86 :: 66 :: 69 :: b64encode (70 :: b5 :: rest) from rfl]
    simp
  rw [if_neg hnonempty]
  have hjv : startsWithL jvberiNeedle (b64encode p) = true := by
    rw [hp]; exact b64encode_jvberi b5 rest hb5
  rw [if_pos hjv, b64_roundtrip p hbytes]
  have hpdf : startsWithL pdfSigBytes p = true := by rw [hp]; rfl
  show (if startsWithL pdfSigBytes p = true then some p else none) = some p
  rw [if_pos hpdf]

/-- C1, counterexample.  For the four-byte sequence `%PDF` itself the claim
fails: its base64 encoding is `JVBERg==`, which does not carry the `JVBERi`
head the source requires, so extraction of the wrapped document returns an
absent result instead of the original bytes. -/
theorem claim1_cex :
    ([37, 80, 68, 70] : List Nat).take 4 = pdfSigBytes ∧
    b64encode [37, 80, 68, 70] = [74, 86, 66, 69, 82, 103, 61, 61] ∧
    extract_pdf_from_xml (wrapStudyData (b64encode [37, 80, 68, 70])) = none :=
  ⟨by decide, rfl, rfl⟩

/-- Witness for C1 as amended, at the bytes of a `%PDF-1.4` header. -/
theorem claim1_amended_witness :
    extract_pdf_from_xml
        (wrapStudyData (b64encode [37, 80, 68, 70, 45, 49, 46, 52])) =
      some [37, 80, 68, 70, 45, 49, 46, 52] :=
  claim1_amended [37, 80, 68, 70, 45, 49, 46, 52] (by decide) 45 [49, 46, 52]
    rfl (by decide)
